import Mathlib

/-!
Shallow embedding of the QR-archival codec from this repository:
`Encode_to_QRCode.py` (encoder, one QR per page), `Decode_from_QRcode.py`
(decoder) and `testwebtoqr.py` (encoder variant, two QR rows per page).

Modelling conventions:
* Byte strings (`bytes`) and text strings (`str`) are both modelled as
  `List Nat`: byte values for `bytes`, Unicode code points for `str`.
  Hypotheses of the form `∀ x ∈ l, x < 256` record that a list denotes bytes.
* `zlib.compress` / `zlib.decompress` are external library calls, not code of
  this repository; they are passed in as parameters `compress : List Nat →
  List Nat` and `decompress : List Nat → Option (List Nat)` (`none` models a
  raised `zlib.error`).  The library guarantee used by the source — that
  decompression inverts compression — appears as an explicit hypothesis.
* `base64.b64encode` / `base64.b64decode` are modelled concretely below
  (standard alphabet, `=` padding, groups of four characters), because the
  wire-format claims are about the exact base64 text.
-/

/-- Standard base64 alphabet: index `n` (a sextet, `n < 64`) to the ASCII code
of the character at that index (`A-Z`, `a-z`, `0-9`, `+`, `/`). -/
def b64chr (n : Nat) : Nat :=
  if n < 26 then 65 + n
  else if n < 52 then 71 + n
  else if n < 62 then n - 4
  else if n = 62 then 43
  else 47

/-- Inverse alphabet lookup: ASCII code to sextet, `none` off the alphabet
(in particular `none` at 61, the code of the padding character). -/
def b64idx (c : Nat) : Option Nat :=
  if 65 ≤ c ∧ c ≤ 90 then some (c - 65)
  else if 97 ≤ c ∧ c ≤ 122 then some (c - 71)
  else if 48 ≤ c ∧ c ≤ 57 then some (c + 4)
  else if c = 43 then some 62
  else if c = 47 then some 63
  else none

/-- Model of `base64.b64encode`: bytes to ASCII codes, three bytes to four
characters, with `=` (ASCII 61) padding on a final group of one or two bytes. -/
def b64encode : List Nat → List Nat
  | [] => []
  | [a] => [b64chr (a / 4), b64chr (a % 4 * 16), 61, 61]
  | [a, b] => [b64chr (a / 4), b64chr (a % 4 * 16 + b / 16), b64chr (b % 16 * 4), 61]
  | a :: b :: c :: rest =>
      b64chr (a / 4) :: b64chr (a % 4 * 16 + b / 16) :: b64chr (b % 16 * 4 + c / 64) ::
        b64chr (c % 64) :: b64encode rest

/-- Decode a final base64 group of four characters, honouring `=` padding. -/
def b64decodeGroup (c1 c2 c3 c4 : Nat) : Option (List Nat) :=
  match b64idx c1, b64idx c2 with
  | some s1, some s2 =>
    if c3 = 61 then
      if c4 = 61 then some [s1 * 4 + s2 / 16] else none
    else
      match b64idx c3 with
      | some s3 =>
        if c4 = 61 then some [s1 * 4 + s2 / 16, s2 % 16 * 16 + s3 / 4]
        else
          match b64idx c4 with
          | some s4 => some [s1 * 4 + s2 / 16, s2 % 16 * 16 + s3 / 4, s3 % 4 * 64 + s4]
          | none => none
      | none => none
  | _, _ => none

/-- Model of `base64.b64decode`: ASCII codes to bytes; the input length must
be a multiple of four, `=` padding is allowed only in the final group, and any
character off the alphabet yields `none` (a raised `binascii.Error`). -/
def b64decode : List Nat → Option (List Nat)
  | [] => some []
  | c1 :: c2 :: c3 :: c4 :: rest =>
    if rest = [] then
      b64decodeGroup c1 c2 c3 c4
    else
      match b64idx c1, b64idx c2, b64idx c3, b64idx c4 with
      | some s1, some s2, some s3, some s4 =>
        (b64decode rest).map fun more =>
          (s1 * 4 + s2 / 16) :: (s2 % 16 * 16 + s3 / 4) :: (s3 % 4 * 64 + s4) :: more
      | _, _, _, _ => none
  | _ => none

theorem b64idx_b64chr : ∀ n, n < 64 → b64idx (b64chr n) = some n := by decide

theorem b64chr_ne_pad (n : Nat) : b64chr n ≠ 61 := by
  unfold b64chr
  split
  · omega
  · split
    · omega
    · split
      · omega
      · split <;> omega

theorem b64encode_ne_nil {l : List Nat} (h : l ≠ []) : b64encode l ≠ [] := by
  match l with
  | [] => exact absurd rfl h
  | [a] => simp [b64encode]
  | [a, b] => simp [b64encode]
  | a :: b :: c :: rest => simp [b64encode]

/-- Base64 round trip: decoding the encoding of any byte list recovers it. -/
theorem b64decode_b64encode : ∀ (l : List Nat), (∀ x ∈ l, x < 256) →
    b64decode (b64encode l) = some l := by
  intro l
  induction l using b64encode.induct with
  | case1 =>
    intro _
    simp [b64encode, b64decode]
  | case2 a =>
    intro hb
    have ha : a < 256 := hb a (by simp)
    have e1 : b64idx (b64chr (a / 4)) = some (a / 4) := b64idx_b64chr _ (by omega)
    have e2 : b64idx (b64chr (a % 4 * 16)) = some (a % 4 * 16) := b64idx_b64chr _ (by omega)
    simp [b64encode, b64decode, b64decodeGroup, e1, e2]
    omega
  | case3 a b =>
    intro hb
    have ha : a < 256 := hb a (by simp)
    have hbb : b < 256 := hb b (by simp)
    have e1 : b64idx (b64chr (a / 4)) = some (a / 4) := b64idx_b64chr _ (by omega)
    have e2 : b64idx (b64chr (a % 4 * 16 + b / 16)) = some (a % 4 * 16 + b / 16) :=
      b64idx_b64chr _ (by omega)
    have e3 : b64idx (b64chr (b % 16 * 4)) = some (b % 16 * 4) := b64idx_b64chr _ (by omega)
    simp [b64encode, b64decode, b64decodeGroup, e1, e2, e3, b64chr_ne_pad]
    omega
  | case4 a b c rest ih =>
    intro hb
    have ha : a < 256 := hb a (by simp)
    have hbb : b < 256 := hb b (by simp)
    have hc : c < 256 := hb c (by simp)
    have hrest : ∀ x ∈ rest, x < 256 := fun x hx => hb x (by simp [hx])
    have e1 : b64idx (b64chr (a / 4)) = some (a / 4) := b64idx_b64chr _ (by omega)
    have e2 : b64idx (b64chr (a % 4 * 16 + b / 16)) = some (a % 4 * 16 + b / 16) :=
      b64idx_b64chr _ (by omega)
    have e3 : b64idx (b64chr (b % 16 * 4 + c / 64)) = some (b % 16 * 4 + c / 64) :=
      b64idx_b64chr _ (by omega)
    have e4 : b64idx (b64chr (c % 64)) = some (c % 64) := b64idx_b64chr _ (by omega)
    by_cases hr : rest = []
    · subst hr
      simp [b64encode, b64decode, b64decodeGroup, e1, e2, e3, e4, b64chr_ne_pad]
      omega
    · have henc := b64encode_ne_nil hr
      simp [b64encode, b64decode, henc, e1, e2, e3, e4, ih hrest]
      omega

/-- Model of the list slicing loop shared by both `chunk_data` functions:
`[data[i:i+size] for i in range(0, len(data), size)]`.  The `size = 0` guard
is unreachable in the source, where `size` is a positive constant
(`CHUNK_SIZE`); `range` with step 0 is outside the Python loop's domain. -/
def chunkBy (size : Nat) (data : List α) : List (List α) :=
  if _hs : size = 0 then []
  else
    match data with
    | [] => []
    | a :: l => ((a :: l).take size) :: chunkBy size ((a :: l).drop size)
termination_by data.length
decreasing_by
  simp only [List.length_drop, List.length_cons]
  omega

theorem chunkBy_nil (size : Nat) : chunkBy size ([] : List α) = [] := by
  rw [chunkBy]
  split <;> rfl

theorem chunkBy_cons (size : Nat) (hs : size ≠ 0) (data : List α) (hd : data ≠ []) :
    chunkBy size data = data.take size :: chunkBy size (data.drop size) := by
  obtain ⟨a, l, rfl⟩ := List.exists_cons_of_ne_nil hd
  rw [chunkBy]
  simp [hs]

/-- Concatenating the chunks in order reproduces the input exactly. -/
theorem chunkBy_flatten (size : Nat) (hs : size ≠ 0) (l : List α) :
    (chunkBy size l).flatten = l := by
  by_cases hd : l = []
  · subst hd
    simp [chunkBy_nil]
  · rw [chunkBy_cons size hs l hd, List.flatten_cons,
      chunkBy_flatten size hs (l.drop size), List.take_append_drop]
termination_by l.length
decreasing_by
  simp only [List.length_drop]
  have := List.length_pos.mpr hd
  omega

/-- Every chunk except possibly the last has length exactly `size`. -/
theorem chunkBy_dropLast_length (size : Nat) (hs : size ≠ 0) (l : List α) :
    ∀ c ∈ (chunkBy size l).dropLast, c.length = size := by
  by_cases hd : l = []
  · subst hd
    simp [chunkBy_nil]
  · rw [chunkBy_cons size hs l hd]
    by_cases hr : l.drop size = []
    · simp [hr, chunkBy_nil]
    · have hne : chunkBy size (l.drop size) ≠ [] := by
        rw [chunkBy_cons size hs _ hr]
        simp
      intro c hc
      rw [List.dropLast_cons_of_ne_nil hne] at hc
      rcases List.mem_cons.mp hc with h | h
      · subst h
        rw [List.length_take]
        have h1 : size ≤ l.length := by
          by_contra hlt
          exact hr (List.drop_eq_nil_of_le (by omega))
        omega
      · exact chunkBy_dropLast_length size hs (l.drop size) c h
termination_by l.length
decreasing_by
  simp only [List.length_drop]
  have := List.length_pos.mpr hd
  omega

/-- The final chunk is nonempty and no longer than `size`. -/
theorem chunkBy_getLast (size : Nat) (hs : size ≠ 0) (l : List α) :
    ∀ c, (chunkBy size l).getLast? = some c → 1 ≤ c.length ∧ c.length ≤ size := by
  by_cases hd : l = []
  · subst hd
    simp [chunkBy_nil]
  · rw [chunkBy_cons size hs l hd]
    by_cases hr : l.drop size = []
    · intro c hc
      rw [hr, chunkBy_nil] at hc
      simp only [List.getLast?_singleton, Option.some.injEq] at hc
      subst hc
      rw [List.length_take]
      have := List.length_pos.mpr hd
      omega
    · have hne : chunkBy size (l.drop size) ≠ [] := by
        rw [chunkBy_cons size hs _ hr]
        simp
      obtain ⟨b, t, hbt⟩ := List.exists_cons_of_ne_nil hne
      intro c hc
      rw [hbt, List.getLast?_cons_cons] at hc
      exact chunkBy_getLast size hs (l.drop size) c (by rw [hbt]; exact hc)
termination_by l.length
decreasing_by
  simp only [List.length_drop]
  have := List.length_pos.mpr hd
  omega

/-- There are zero chunks exactly when the input is empty. -/
theorem chunkBy_eq_nil_iff (size : Nat) (hs : size ≠ 0) (l : List α) :
    chunkBy size l = [] ↔ l = [] := by
  constructor
  · intro h
    by_contra hd
    rw [chunkBy_cons size hs l hd] at h
    simp at h
  · intro h
    subst h
    exact chunkBy_nil size

/-! Constants and functions of `Encode_to_QRCode.py` (single QR per page). -/

def PAGE_SIZE_INCH : Nat := 8

def DPI : Nat := 600

def PX : Nat := DPI * PAGE_SIZE_INCH

/-- Value of `int(0.6 * DPI)` in the source (evaluates to 360). -/
def QR_PADDING_PX : Nat := 360

/-- Value of `int(0.9 * DPI)` in the source (evaluates to 540). -/
def QR_BOTTOM_OFFSET_PX : Nat := 540

def QR_DRAW_SIZE_PX : Nat := PX - 2 * QR_PADDING_PX - QR_BOTTOM_OFFSET_PX

def CHUNK_SIZE : Nat := 1000

/-- Model of `compress_html`: `base64.b64encode(zlib.compress(full_html.encode("utf-8")))`.
The argument is the UTF-8 byte string of the page; `compress` stands for the
external `zlib.compress`. -/
def compress_html (compress : List Nat → List Nat) (full_html : List Nat) : List Nat :=
  b64encode (compress full_html)

/-- Model of `chunk_data`: `[data[i:i + CHUNK_SIZE] for i in range(0, len(data), CHUNK_SIZE)]`. -/
def chunk_data (data : List Nat) : List (List Nat) :=
  chunkBy CHUNK_SIZE data

/-- The standard QR error-correction levels of the `qrcode` library. -/
inductive ECLevel
  | L
  | M
  | Q
  | H
deriving DecidableEq

/-- PIL resampling filters that appear in the source. -/
inductive Resample
  | nearest
  | lanczos
deriving DecidableEq

/-- Observable configuration of a rendered QR image: the payload the symbol
encodes, the error-correction level, the quiet-zone border width (in modules),
whether the symbol version is chosen automatically (`qr.make(fit=True)`), the
final pixel dimensions, and the resampling filter used for the upscale. -/
structure QRImageModel where
  data : List Nat
  ecLevel : ECLevel
  border : Nat
  fit : Bool
  width : Nat
  height : Nat
  resample : Resample
deriving DecidableEq

/-- Model of `create_qr_image`: `qrcode.QRCode(error_correction=ERROR_CORRECT_H,
border=4)`, `qr.add_data(data)`, `qr.make(fit=True)`, then
`img.resize((size_px, size_px), Image.NEAREST)`. -/
def create_qr_image (data : List Nat) (size_px : Nat) : QRImageModel :=
  { data := data
    ecLevel := .H
    border := 4
    fit := true
    width := size_px
    height := size_px
    resample := .nearest }

/-- Model of `write_pdf` in `Encode_to_QRCode.py` at the page-content level: a
page is the list of QR payloads drawn on it, and each chunk gets its own page
(the page-number caption is plain text, not a symbol). -/
def write_pdf (qr_chunks : List (List Nat)) : List (List (List Nat)) :=
  qr_chunks.map fun chunk => [chunk]

/-- Model of the encoder `main` payload construction: the fetched page is
image-inlined and then `"<!DOCTYPE html>\n"` is prepended (UTF-8 bytes below).
`inline_images` is glue around external libraries and stays abstract. -/
def DOCTYPE_PREFIX : List Nat :=
  [60, 33, 68, 79, 67, 84, 89, 80, 69, 32, 104, 116, 109, 108, 62, 10]

/-- Model of `full_html = "<!DOCTYPE html>\n" + inline_images(html, url)` from
the encoder `main` (the same construction appears in `testwebtoqr.py`). -/
def build_payload (inline_images : List Nat → List Nat) (html : List Nat) : List Nat :=
  DOCTYPE_PREFIX ++ inline_images html

/-! Constants and functions of `testwebtoqr.py` (two QR rows per page). -/

namespace TW

def DPI : Nat := 600

def ROWS : Nat := 2

def CHUNK_SIZE : Nat := 800

/-- Value of `int(DPI * FINAL_W_IN)` with `FINAL_W_IN = 100 / 25.4`
(evaluates to 2362). -/
def QR_PIXELS : Nat := 2362

/-- Model of `chunk_data` in `testwebtoqr.py` (identical slicing loop, with
this file's `CHUNK_SIZE = 800`). -/
def chunk_data (data_str : List Nat) : List (List Nat) :=
  chunkBy CHUNK_SIZE data_str

/-- Model of `make_qr`: same QR configuration as `create_qr_image`, but the
output size is the fixed `QR_PIXELS`. -/
def make_qr (data_str : List Nat) : QRImageModel :=
  { data := data_str
    ecLevel := .H
    border := 4
    fit := true
    width := QR_PIXELS
    height := QR_PIXELS
    resample := .nearest }

/-- Model of `write_pdf` in `testwebtoqr.py` at the page-content level: a
leading statistics/instructions page carrying no QR symbol, then the chunk
images grouped `ROWS` to a page (`pages = [buffers[i:i+ROWS] for i in
range(0, len(buffers), ROWS)]`). -/
def write_pdf (buffers : List (List Nat)) : List (List (List Nat)) :=
  [] :: chunkBy ROWS buffers

end TW

/-! Constants and functions of `Decode_from_QRcode.py`. -/

/-- DPI passed to `page.get_pixmap(dpi=300)` when rasterizing each PDF page. -/
def GET_PIXMAP_DPI : Nat := 300

/-- Model of the per-page symbol recovery: `codes = decode(img)` followed by
`codes[0].data` when any symbol is found — only the first symbol of a page is
used.  A page is the list of QR payloads a symbol reader finds on it. -/
def scan_page (codes : List (List Nat)) : Option (List Nat) :=
  codes.head?

/-- Pairs `(page_num + 1, data)` accumulated by the loop in
`extract_qr_from_pdf` (pages are visited in order, numbering is 1-based). -/
def extract_pairs (pages : List (List (List Nat))) : List (Nat × List Nat) :=
  pages.enum.filterMap fun ip => (scan_page ip.2).map fun d => (ip.1 + 1, d)

/-- Page numbers reported by `print(f"[WARN] Page ...: No QR code found")`:
the 1-based positions of pages on which no symbol decodes. -/
def page_warnings (pages : List (List (List Nat))) : List Nat :=
  pages.enum.filterMap fun ip => if ip.2 = [] then some (ip.1 + 1) else none

/-- Model of `qr_chunks.sort()`: Python sorts the `(page number, text)` tuples
lexicographically with a stable sort.  The loop appends each page number at
most once, so first components are distinct on every reachable input and the
tuple order coincides with comparison of the page numbers alone, which is what
this model sorts by (stably, so it agrees with Python even on ties). -/
def sort_pairs (l : List (Nat × List Nat)) : List (Nat × List Nat) :=
  l.mergeSort fun a b => decide (a.1 ≤ b.1)

/-- Model of `extract_qr_from_pdf`: collect `(page number, text)` for each
page with a decodable symbol, sort, and return the texts in sorted order. -/
def extract_qr_from_pdf (pages : List (List (List Nat))) : List (List Nat) :=
  (sort_pairs (extract_pairs pages)).map Prod.snd

/-- Failure taxonomy for reassembly.  `invalidEncoding` models a raised
`binascii.Error` from `base64.b64decode`, `corruptStream` a raised
`zlib.error` from `zlib.decompress`, and `invalidText` a raised
`UnicodeDecodeError` from the trailing `.decode("utf-8")`.  `missingChunk` is
the `MissingChunkError` the specification postulates; it is included so that
statements about it can be made, and the code below never produces it. -/
inductive ReassemblyError
  | invalidEncoding
  | corruptStream
  | invalidText
  | missingChunk
deriving DecidableEq

/-- Model of the byte-level part of `decode_chunks_to_data`:
`zlib.decompress(base64.b64decode(''.join(chunks)))`, with `decompress`
standing for the external `zlib.decompress`.  The source line ends with a
further `.decode("utf-8")`; that text-level step is modelled separately by
`utf8decode`, and `decode_chunks_to_text` below composes the two into the
full source function. -/
def decode_chunks_to_data (decompress : List Nat → Option (List Nat))
    (chunks : List (List Nat)) : Except ReassemblyError (List Nat) :=
  match b64decode chunks.flatten with
  | none => .error .invalidEncoding
  | some bs =>
    match decompress bs with
    | none => .error .corruptStream
    | some d => .ok d

/-- Model of `bytes.decode("utf-8")` (strict): bytes to Unicode code points,
`none` on malformed input — a truncated sequence, a bad continuation byte, an
overlong encoding, a surrogate, or a code point beyond U+10FFFF (a raised
`UnicodeDecodeError`). -/
def utf8decode : List Nat → Option (List Nat)
  | [] => some []
  | b :: rest =>
    if b < 128 then (utf8decode rest).map fun s => b :: s
    else if 194 ≤ b ∧ b ≤ 223 then
      match rest with
      | c1 :: rest2 =>
        if 128 ≤ c1 ∧ c1 ≤ 191 then
          (utf8decode rest2).map fun s => ((b - 192) * 64 + (c1 - 128)) :: s
        else none
      | [] => none
    else if 224 ≤ b ∧ b ≤ 239 then
      match rest with
      | c1 :: c2 :: rest2 =>
        if (if b = 224 then 160 ≤ c1 ∧ c1 ≤ 191
            else if b = 237 then 128 ≤ c1 ∧ c1 ≤ 159
            else 128 ≤ c1 ∧ c1 ≤ 191)
            ∧ 128 ≤ c2 ∧ c2 ≤ 191 then
          (utf8decode rest2).map fun s =>
            ((b - 224) * 4096 + (c1 - 128) * 64 + (c2 - 128)) :: s
        else none
      | _ => none
    else if 240 ≤ b ∧ b ≤ 244 then
      match rest with
      | c1 :: c2 :: c3 :: rest2 =>
        if (if b = 240 then 144 ≤ c1 ∧ c1 ≤ 191
            else if b = 244 then 128 ≤ c1 ∧ c1 ≤ 143
            else 128 ≤ c1 ∧ c1 ≤ 191)
            ∧ 128 ≤ c2 ∧ c2 ≤ 191 ∧ 128 ≤ c3 ∧ c3 ≤ 191 then
          (utf8decode rest2).map fun s =>
            ((b - 240) * 262144 + (c1 - 128) * 4096 + (c2 - 128) * 64 + (c3 - 128)) :: s
        else none
      | _ => none
    else none
termination_by l => l.length
decreasing_by all_goals simp_arith [List.length_cons]

/-- Full model of `decode_chunks_to_data` as written in the source:
`zlib.decompress(base64.b64decode(''.join(chunks))).decode("utf-8")` — the
byte-level reassembly followed by UTF-8 decoding of the decompressed bytes. -/
def decode_chunks_to_text (decompress : List Nat → Option (List Nat))
    (chunks : List (List Nat)) : Except ReassemblyError (List Nat) :=
  match decode_chunks_to_data decompress chunks with
  | .error e => .error e
  | .ok bs =>
    match utf8decode bs with
    | none => .error .invalidText
    | some s => .ok s

/-- Model of the decoder `main`: returns the text written to the output file,
or `none` when nothing is written — either because no QR code was found
(`if not chunks: return`) or because `decode_chunks_to_data` raised in any of
its three steps (base64, zlib, UTF-8) and the `except` branch ran before any
`open` of the output path. -/
def main_decode (decompress : List Nat → Option (List Nat))
    (pages : List (List (List Nat))) : Option (List Nat) :=
  let chunks := extract_qr_from_pdf pages
  if chunks.isEmpty then none
  else
    match decode_chunks_to_text decompress chunks with
    | .ok d => some d
    | .error _ => none

instance : DecidableEq (Except ReassemblyError (List Nat)) := fun a b =>
  match a, b with
  | .ok x, .ok y =>
    if h : x = y then .isTrue (congrArg Except.ok h)
    else .isFalse fun hc => h (Except.ok.inj hc)
  | .error x, .error y =>
    if h : x = y then .isTrue (congrArg Except.error h)
    else .isFalse fun hc => h (Except.error.inj hc)
  | .ok _, .error _ => .isFalse fun hc => Except.noConfusion hc
  | .error _, .ok _ => .isFalse fun hc => Except.noConfusion hc

/-! Helper lemmas about the extraction pipeline. -/

theorem extract_pairs_map_singleton (n : Nat) (l : List (List Nat)) :
    (List.enumFrom n (l.map fun c => [c])).filterMap
        (fun ip => (scan_page ip.2).map fun d => (ip.1 + 1, d))
      = List.enumFrom (n + 1) l := by
  induction l generalizing n with
  | nil => rfl
  | cons c t ih =>
    have ih2 := ih (n + 1)
    simp only [scan_page] at ih2 ⊢
    simp only [List.map_cons, List.enumFrom_cons, List.filterMap_cons, List.head?_cons,
      Option.map_some]
    rw [ih2]
    rfl

/-- With every page present and decodable, the scan loop recovers the pairs
`(1, chunk 0), (2, chunk 1), ...` in page order. -/
theorem extract_pairs_write_pdf (chunks : List (List Nat)) :
    extract_pairs (write_pdf chunks) = List.enumFrom 1 chunks := by
  unfold extract_pairs write_pdf
  rw [List.enum_eq_enumFrom]
  exact extract_pairs_map_singleton 0 chunks

theorem pairwise_fst_lt_enumFrom (n : Nat) (l : List α) :
    (List.enumFrom n l).Pairwise fun a b => a.1 < b.1 := by
  induction l generalizing n with
  | nil => simp
  | cons a t ih =>
    simp only [List.enumFrom_cons, List.pairwise_cons]
    refine ⟨fun x hx => ?_, ih (n + 1)⟩
    have := List.le_fst_of_mem_enumFrom hx
    omega

/-- Sorting pairs already in weakly increasing page order changes nothing. -/
theorem sort_pairs_of_sorted {l : List (Nat × List Nat)}
    (h : l.Pairwise fun a b => a.1 ≤ b.1) : sort_pairs l = l :=
  List.mergeSort_of_sorted (h.imp fun hab => decide_eq_true hab)

/-- Scanning the document written by the single-QR-per-page encoder with no
page lost recovers exactly the chunk sequence, in order. -/
theorem extract_qr_from_pdf_write_pdf (chunks : List (List Nat)) :
    extract_qr_from_pdf (write_pdf chunks) = chunks := by
  unfold extract_qr_from_pdf
  rw [extract_pairs_write_pdf,
    sort_pairs_of_sorted ((pairwise_fst_lt_enumFrom 1 chunks).imp fun h => Nat.le_of_lt h)]
  exact List.enumFrom_map_snd 1 chunks

theorem chunk_data_flatten (data : List Nat) : (chunk_data data).flatten = data :=
  chunkBy_flatten CHUNK_SIZE (by decide) data

/-- Shared round-trip core: encoding a payload, scanning every page of the
written document and reassembling recovers the payload exactly. -/
theorem pipeline_round_trip (compress : List Nat → List Nat)
    (decompress : List Nat → Option (List Nat))
    (hinv : ∀ b, decompress (compress b) = some b)
    (payload : List Nat) (h256 : ∀ x ∈ compress payload, x < 256) :
    decode_chunks_to_data decompress
        (extract_qr_from_pdf (write_pdf (chunk_data (compress_html compress payload))))
      = .ok payload := by
  rw [extract_qr_from_pdf_write_pdf]
  unfold decode_chunks_to_data compress_html
  rw [chunk_data_flatten, b64decode_b64encode _ h256]
  simp only [hinv]

/-- C1.  Round-trip: for every byte sequence `P` (including the empty
sequence), decoding the document produced by encoding `P` — applying
base64-decode then zlib-decompress to the concatenation, in chunk order, of
all recovered chunk strings — yields exactly `P`, provided no page is lost.
`compress` / `decompress` stand for the external zlib calls, assumed mutually
inverse; compressed output consists of bytes. -/
theorem c1_round_trip (compress : List Nat → List Nat)
    (decompress : List Nat → Option (List Nat))
    (hinv : ∀ b, decompress (compress b) = some b)
    (payload : List Nat) (h256 : ∀ x ∈ compress payload, x < 256) :
    decode_chunks_to_data decompress
        (extract_qr_from_pdf (write_pdf (chunk_data (compress_html compress payload))))
      = .ok payload :=
  pipeline_round_trip compress decompress hinv payload h256

/-- Witness for C1 at a concrete payload, instantiating the zlib pair with
the identity compressor (which satisfies the inverse hypothesis). -/
theorem c1_round_trip_witness :
    decode_chunks_to_data some
        (extract_qr_from_pdf (write_pdf (chunk_data (compress_html id [104, 105]))))
      = .ok [104, 105] :=
  c1_round_trip id some (fun _ => rfl) [104, 105] (by decide)

/-- C2.  Chunker correctness, for both encoder variants: the chunks
concatenate in order to exactly the input text, every chunk except possibly
the last has length exactly `CHUNK_SIZE` (1000, resp. 800 in
`testwebtoqr.py`), the last chunk has length in `[1, CHUNK_SIZE]`, and the
result is empty exactly when the text is empty. -/
theorem c2_chunker (text : List Nat) :
    ((chunk_data text).flatten = text
      ∧ (∀ c ∈ (chunk_data text).dropLast, c.length = CHUNK_SIZE)
      ∧ (∀ c, (chunk_data text).getLast? = some c → 1 ≤ c.length ∧ c.length ≤ CHUNK_SIZE)
      ∧ (chunk_data text = [] ↔ text = []))
    ∧ ((TW.chunk_data text).flatten = text
      ∧ (∀ c ∈ (TW.chunk_data text).dropLast, c.length = TW.CHUNK_SIZE)
      ∧ (∀ c, (TW.chunk_data text).getLast? = some c →
          1 ≤ c.length ∧ c.length ≤ TW.CHUNK_SIZE)
      ∧ (TW.chunk_data text = [] ↔ text = [])) :=
  ⟨⟨chunkBy_flatten CHUNK_SIZE (by decide) text,
    chunkBy_dropLast_length CHUNK_SIZE (by decide) text,
    chunkBy_getLast CHUNK_SIZE (by decide) text,
    chunkBy_eq_nil_iff CHUNK_SIZE (by decide) text⟩,
   ⟨chunkBy_flatten TW.CHUNK_SIZE (by decide) text,
    chunkBy_dropLast_length TW.CHUNK_SIZE (by decide) text,
    chunkBy_getLast TW.CHUNK_SIZE (by decide) text,
    chunkBy_eq_nil_iff TW.CHUNK_SIZE (by decide) text⟩⟩

unseal chunkBy in
/-- Witness for C2: on the one-character text `"A"` both chunkers produce the
single chunk `["A"]`, whose length lies in `[1, CHUNK_SIZE]`. -/
theorem c2_chunker_witness :
    (1 ≤ ([65] : List Nat).length ∧ ([65] : List Nat).length ≤ CHUNK_SIZE)
    ∧ (1 ≤ ([65] : List Nat).length ∧ ([65] : List Nat).length ≤ TW.CHUNK_SIZE) :=
  ⟨(c2_chunker [65]).1.2.2.1 [65] (by decide),
   (c2_chunker [65]).2.2.2.1 [65] (by decide)⟩

/-- The external `zlib.decompress`, pinned at the one stream the
counterexample below feeds it: `zlib.compress(b"")` is the 8-byte stream
`78 9C 03 00 00 00 00 01`, which decompresses to the empty byte string.  On
every other input this stand-in raises, as `zlib.decompress` does on streams
it cannot parse, so it agrees with the library on the only bytes it ever
receives here. -/
def zlib_decompress_at_empty (bs : List Nat) : Option (List Nat) :=
  if bs = [120, 156, 3, 0, 0, 0, 0, 1] then some [] else none

unseal List.merge List.mergeSort utf8decode in
/-- Counterexample to C3 as stated.  Document with two pages: the first
carries the chunk `"eJwDAAAAAAE="` — the base64 of `zlib.compress(b"")` — and
the second yields no decodable symbol, so the expected position 2 is absent.
The run does not fail with a missing-chunk error: it warns about page 2,
base64-decodes the surviving chunk to the empty zlib stream, decompresses it
to `b""`, UTF-8-decodes that to the empty string, and writes the (empty)
output file. -/
theorem c3_counterexample :
    scan_page ([] : List (List Nat)) = none
    ∧ page_warnings [[[101, 74, 119, 68, 65, 65, 65, 65, 65, 65, 69, 61]], []] = [2]
    ∧ main_decode zlib_decompress_at_empty
        [[[101, 74, 119, 68, 65, 65, 65, 65, 65, 65, 69, 61]], []] = some []
    ∧ decode_chunks_to_text zlib_decompress_at_empty
        (extract_qr_from_pdf [[[101, 74, 119, 68, 65, 65, 65, 65, 65, 65, 69, 61]], []])
        ≠ Except.error ReassemblyError.missingChunk :=
  ⟨rfl, by decide, by decide, by decide⟩

/-- C3 (amended).  The decoder performs no missing-position check: a page
that fails to decode is merely warned about and skipped, reassembly proceeds
with the remaining chunks, and no error of the postulated missing-chunk kind
is ever produced.  An output file is omitted exactly when no chunk at all was
recovered or when one of the three inverse steps — base64-decoding,
decompression, or UTF-8-decoding of the decompressed bytes — fails on the
concatenation. -/
theorem c3_no_missing_chunk_check (decompress : List Nat → Option (List Nat))
    (pages : List (List (List Nat))) :
    (∀ chunks, decode_chunks_to_text decompress chunks
        ≠ Except.error ReassemblyError.missingChunk)
    ∧ (main_decode decompress pages = none ↔
        extract_qr_from_pdf pages = []
        ∨ ∃ e, decode_chunks_to_text decompress (extract_qr_from_pdf pages)
            = Except.error e) := by
  constructor
  · intro chunks
    unfold decode_chunks_to_text decode_chunks_to_data
    cases b64decode chunks.flatten with
    | none => simp
    | some bs =>
      cases hd : decompress bs with
      | none => simp [hd]
      | some d =>
        simp only [hd]
        cases hu : utf8decode d with
        | none => simp [hu]
        | some s => simp [hu]
  · unfold main_decode
    cases hch : extract_qr_from_pdf pages with
    | nil =>
      simp [hch]
    | cons c t =>
      simp only [List.isEmpty_cons, if_neg]
      cases hd : decode_chunks_to_text decompress (c :: t) with
      | ok d => simp [hd, hch]
      | error e => simp [hd, hch]

unseal List.merge List.mergeSort utf8decode in
/-- Witness for the amended C3: with a decompressor that always fails, a
one-page document is read, reassembly fails in the inverse transforms, and no
output is written. -/
theorem c3_no_missing_chunk_check_witness :
    main_decode (fun _ => none) [[[65, 65, 65, 65]]] = none :=
  (c3_no_missing_chunk_check (fun _ => none) [[[65, 65, 65, 65]]]).2.mpr
    (Or.inr ⟨ReassemblyError.corruptStream, by decide⟩)

/-- Counterexample to C4 as stated: the writers compose pages at `DPI = 600`
(both encoder variants) while the scanner rasterizes pages at
`get_pixmap(dpi=300)`; the two resolution parameters are not equal. -/
theorem c4_counterexample :
    DPI = 600 ∧ TW.DPI = 600 ∧ GET_PIXMAP_DPI = 300
    ∧ GET_PIXMAP_DPI ≠ DPI ∧ GET_PIXMAP_DPI ≠ TW.DPI := by decide

/-- C4 (amended).  The rasterization DPI used by the scanner (300) does not
equal the DPI used by the writers (600); it is exactly half of it, for both
encoder variants. -/
theorem c4_resolution_mismatch :
    GET_PIXMAP_DPI = 300 ∧ DPI = 600 ∧ TW.DPI = 600
    ∧ 2 * GET_PIXMAP_DPI = DPI ∧ 2 * GET_PIXMAP_DPI = TW.DPI := by decide

/-- C5.  Wire format: the text distributed across the QR symbols is exactly
base64(deflate(payload)) with no added framing.  Concatenating the chunks in
order yields exactly the base64 text (for both chunk sizes), so no index byte
or checksum is embedded in any chunk; and the writers place the chunk strings
verbatim into the page layout (one per page, resp. `ROWS` per page after a
symbol-free statistics page), so ordering information exists only in the
document's page/slot structure. -/
theorem c5_wire_format (compress : List Nat → List Nat) (payload : List Nat)
    (buffers : List (List Nat)) :
    (chunk_data (compress_html compress payload)).flatten = b64encode (compress payload)
    ∧ (TW.chunk_data (compress_html compress payload)).flatten = b64encode (compress payload)
    ∧ write_pdf (chunk_data (compress_html compress payload))
        = (chunk_data (compress_html compress payload)).map (fun c => [c])
    ∧ (TW.write_pdf buffers).flatten = buffers :=
  ⟨chunk_data_flatten _,
   chunkBy_flatten TW.CHUNK_SIZE (by decide) _,
   rfl,
   chunkBy_flatten TW.ROWS (by decide) buffers⟩

/-- C6.  Reassembler ordering: for every sequence of recovered
`(page number, text)` pairs with distinct page numbers, the sort step orders
the pairs into strictly ascending page-number order and neither drops nor
duplicates any recovered chunk (the sorted texts are a permutation of the
recovered texts); the concatenation-and-decode step is then applied to the
texts in that order. -/
theorem c6_reassembler_ordering (recovered : List (Nat × List Nat))
    (hnodup : (recovered.map Prod.fst).Nodup) :
    ((sort_pairs recovered).map Prod.fst).Pairwise (· < ·)
    ∧ List.Perm ((sort_pairs recovered).map Prod.snd) (recovered.map Prod.snd)
    ∧ (sort_pairs recovered).length = recovered.length := by
  have hperm : List.Perm (sort_pairs recovered) recovered := List.mergeSort_perm recovered _
  have hle0 : (sort_pairs recovered).Pairwise
      fun a b => decide (a.1 ≤ b.1) = true := by
    unfold sort_pairs
    exact List.sorted_mergeSort
      (fun a b c hab hbc => by
        simp only [decide_eq_true_eq] at hab hbc ⊢
        omega)
      (fun a b => by
        simp only [Bool.or_eq_true, decide_eq_true_eq]
        omega)
      recovered
  have hle : (sort_pairs recovered).Pairwise fun a b => a.1 ≤ b.1 :=
    hle0.imp fun h => by simpa using h
  have hnd : ((sort_pairs recovered).map Prod.fst).Nodup :=
    (hperm.map Prod.fst).nodup_iff.mpr hnodup
  have hne : (sort_pairs recovered).Pairwise fun a b => a.1 ≠ b.1 :=
    List.pairwise_map.mp hnd
  refine ⟨List.pairwise_map.mpr ((hle.and hne).imp fun h => lt_of_le_of_ne h.1 h.2),
    hperm.map Prod.snd, hperm.length_eq⟩

unseal List.merge List.mergeSort in
/-- Witness for C6 on the out-of-order recovered sequence
`[(2, "B"), (1, "A")]`: the sort produces strictly ascending page numbers and
a permutation of the recovered texts. -/
theorem c6_reassembler_ordering_witness :
    (([(2, [66]), (1, [65])] : List (Nat × List Nat)).map Prod.fst).Nodup
    ∧ ((sort_pairs [(2, [66]), (1, [65])]).map Prod.fst).Pairwise (· < ·)
    ∧ List.Perm ((sort_pairs [(2, [66]), (1, [65])]).map Prod.snd)
        (([(2, [66]), (1, [65])] : List (Nat × List Nat)).map Prod.snd) :=
  ⟨by decide,
   (c6_reassembler_ordering [(2, [66]), (1, [65])] (by decide)).1,
   (c6_reassembler_ordering [(2, [66]), (1, [65])] (by decide)).2.1⟩

/-- C7.  QR rendering: for every chunk string and positive pixel size,
`create_qr_image` produces a square `size_px × size_px` image that encodes
the chunk verbatim at error-correction level H (the highest standard level),
with the symbol version selected automatically (`fit=True`), a quiet-zone
border of fixed width 4 modules, and a nearest-neighbour (never smoothed)
upscale; `make_qr` in `testwebtoqr.py` is the same configuration at the fixed
size `QR_PIXELS`. -/
theorem c7_qr_rendering (data : List Nat) (size_px : Nat) (_hpos : 0 < size_px) :
    (create_qr_image data size_px).width = size_px
    ∧ (create_qr_image data size_px).height = size_px
    ∧ (create_qr_image data size_px).data = data
    ∧ (create_qr_image data size_px).ecLevel = ECLevel.H
    ∧ (create_qr_image data size_px).fit = true
    ∧ (create_qr_image data size_px).border = 4
    ∧ (create_qr_image data size_px).resample = Resample.nearest
    ∧ TW.make_qr data = create_qr_image data TW.QR_PIXELS :=
  ⟨rfl, rfl, rfl, rfl, rfl, rfl, rfl, rfl⟩

/-- Witness for C7 at a one-character chunk and pixel size 1. -/
theorem c7_qr_rendering_witness :
    (create_qr_image [65] 1).width = 1 ∧ (create_qr_image [65] 1).height = 1
    ∧ (create_qr_image [65] 1).ecLevel = ECLevel.H :=
  ⟨(c7_qr_rendering [65] 1 (by decide)).1, (c7_qr_rendering [65] 1 (by decide)).2.1,
   (c7_qr_rendering [65] 1 (by decide)).2.2.2.1⟩

/-- C8.  Partial-failure handling: a page from which no QR symbol can be
decoded is reported with its (1-based) page number and contributes nothing to
the recovered sequence, while every page that does decode contributes its
first symbol regardless of failures elsewhere — a failed page is never by
itself fatal to the run. -/
theorem c8_partial_failure (pages : List (List (List Nat))) (i : Nat)
    (hi : i < pages.length) :
    (pages[i] = [] →
        (i + 1) ∈ page_warnings pages ∧ ∀ d, (i + 1, d) ∉ extract_pairs pages)
    ∧ (∀ s rest, pages[i] = s :: rest → (i + 1, s) ∈ extract_pairs pages) := by
  have hmem : (i, pages[i]) ∈ pages.enum :=
    List.mk_mem_enum_iff_getElem?.mpr (by simp [List.getElem?_eq_getElem hi])
  constructor
  · intro hempty
    constructor
    · exact List.mem_filterMap.mpr ⟨(i, pages[i]), hmem, by simp [hempty]⟩
    · intro d hd
      obtain ⟨⟨j, p⟩, hjp, heq⟩ := List.mem_filterMap.mp hd
      cases hsp : scan_page p with
      | none => rw [hsp] at heq; simp at heq
      | some s =>
        rw [hsp] at heq
        have heq2 : (j + 1, s) = (i + 1, d) := Option.some.inj heq
        have hj : j = i := by
          have := congrArg Prod.fst heq2
          simpa using this
        have hp : p = pages[i] := by
          have h2 := List.mk_mem_enum_iff_getElem?.mp hjp
          rw [hj, List.getElem?_eq_getElem hi] at h2
          exact (Option.some.inj h2).symm
        rw [hp, hempty] at hsp
        simp [scan_page] at hsp
  · intro s rest hsr
    exact List.mem_filterMap.mpr ⟨(i, pages[i]), hmem, by rw [hsr]; simp [scan_page]⟩

/-- Witness for C8 on a three-page document whose middle page decodes to
nothing: page 2 is warned about and contributes no pair, while pages 1 and 3
still contribute their symbols. -/
theorem c8_partial_failure_witness :
    (2 ∈ page_warnings [[[65]], [], [[66]]]
      ∧ ∀ d, (2, d) ∉ extract_pairs [[[65]], [], [[66]]])
    ∧ (3, [66]) ∈ extract_pairs [[[65]], [], [[66]]] :=
  ⟨(c8_partial_failure [[[65]], [], [[66]]] 1 (by decide)).1 rfl,
   (c8_partial_failure [[[65]], [], [[66]]] 2 (by decide)).2 [66] [] rfl⟩

/-- C9.  One-symbol-per-page assumption: the decode routine uses only the
first symbol found on a rasterized page (`codes[0]`), recovering at most one
pair per page, while the two-row encode variant places `ROWS = 2` symbols on
a data page; consequently, on any page of such a document holding more than
one symbol, decoding recovers exactly one chunk — strictly fewer than the
page holds.  Moreover such a page exists whenever at least two chunks are
encoded. -/
theorem c9_one_symbol_per_page (buffers : List (List Nat)) (page : List (List Nat))
    (hmem : page ∈ TW.write_pdf buffers) (hmulti : 1 < page.length) :
    scan_page page = page.head?
    ∧ (scan_page page).toList.length = 1
    ∧ (scan_page page).toList.length < page.length
    ∧ (∀ pages : List (List (List Nat)), (extract_pairs pages).length ≤ pages.length)
    ∧ (2 ≤ buffers.length → ∃ p ∈ TW.write_pdf buffers, 1 < p.length) := by
  obtain ⟨s, rest, rfl⟩ : ∃ s rest, page = s :: rest := by
    cases page with
    | nil => simp at hmulti
    | cons s rest => exact ⟨s, rest, rfl⟩
  refine ⟨rfl, rfl, ?_, ?_, ?_⟩
  · simpa [scan_page] using hmulti
  · intro pages
    calc (extract_pairs pages).length
        ≤ pages.enum.length := List.length_filterMap_le _ _
      _ = pages.length := List.enum_length
  · intro hlen
    have hne : buffers ≠ [] := by
      intro h
      rw [h] at hlen
      simp at hlen
    refine ⟨buffers.take TW.ROWS, ?_, ?_⟩
    · unfold TW.write_pdf
      rw [chunkBy_cons TW.ROWS (by decide) buffers hne]
      simp
    · rw [List.length_take]
      have : TW.ROWS = 2 := rfl
      omega

unseal chunkBy in
/-- Witness for C9: with two chunks, the document of the two-row writer is a
statistics page followed by one data page holding both symbols; the scan of
that page recovers only the first symbol. -/
theorem c9_one_symbol_per_page_witness :
    [[65], [66]] ∈ TW.write_pdf [[65], [66]]
    ∧ scan_page [[65], [66]] = some [65]
    ∧ (scan_page [[65], [66]]).toList.length < ([[65], [66]] : List (List Nat)).length :=
  ⟨by decide, by decide,
   (c9_one_symbol_per_page [[65], [66]] [[65], [66]] (by decide) (by decide)).2.2.1⟩

/-- C10.  Implicit payload prefixing: for a fetched-URL run the payload handed
to the compressor is the image-inlined page with the fixed 16-byte line
`"<!DOCTYPE html>\n"` prepended; hence the payload (and, by the round trip,
the reconstructed output) begins with that line, differs from the inlined
page, and — whenever inlining leaves the page unchanged — differs from the
page as fetched. -/
theorem c10_doctype_line (inline_images : List Nat → List Nat) (html : List Nat) :
    build_payload inline_images html = DOCTYPE_PREFIX ++ inline_images html
    ∧ DOCTYPE_PREFIX <+: build_payload inline_images html
    ∧ build_payload inline_images html ≠ inline_images html
    ∧ (inline_images html = html → build_payload inline_images html ≠ html)
    ∧ ∀ (compress : List Nat → List Nat) (decompress : List Nat → Option (List Nat)),
        (∀ b, decompress (compress b) = some b) →
        (∀ x ∈ compress (build_payload inline_images html), x < 256) →
        decode_chunks_to_data decompress (extract_qr_from_pdf (write_pdf (chunk_data
            (compress_html compress (build_payload inline_images html)))))
          = .ok (build_payload inline_images html) := by
  refine ⟨rfl, ⟨inline_images html, rfl⟩, ?_, ?_, ?_⟩
  · intro h
    have := congrArg List.length h
    simp [build_payload, DOCTYPE_PREFIX] at this
    omega
  · intro hid h
    rw [build_payload, hid] at h
    have := congrArg List.length h
    simp [DOCTYPE_PREFIX] at this
    omega
  · intro compress decompress hinv h256
    exact pipeline_round_trip compress decompress hinv _ h256

/-- Witness for C10 with the identity inliner on the one-byte page `"A"`:
the payload differs from the fetched page and round-trips through the full
pipeline. -/
theorem c10_doctype_line_witness :
    build_payload id [65] ≠ [65]
    ∧ decode_chunks_to_data some (extract_qr_from_pdf (write_pdf (chunk_data
        (compress_html id (build_payload id [65]))))) = .ok (build_payload id [65]) :=
  ⟨(c10_doctype_line id [65]).2.2.2.1 rfl,
   (c10_doctype_line id [65]).2.2.2.2 id some (fun _ => rfl) (by decide)⟩
